import Mathlib

/-!
# Verification of the Sokoban game/economy state machine

The repository's presentation layer (`a3.py`) is present; the authoritative
model (`SokobanModel` in `model.py`) is consumed by it but not part of the
sources, so the game/economy core below is modelled from the specification's
component design (sections 3 and 4), while the key-handling and win/loss
dispatch logic is embedded directly from `a3.py`.
-/

namespace Sokoban

/-- Modelled from the spec: static per-cell terrain type (`model.py` is
missing). `FilledGoal` is a derived display state, treated as computed, not
stored (spec section 3), so it is not a ground-truth tile. -/
inductive Tile where
  | Floor : Tile
  | Wall : Tile
  | Goal : Tile
deriving DecidableEq, Repr

/-- Modelled from the spec: entity variants (`model.py` is missing). The
player is tracked as a first-class singleton coordinate, not an entity
entry. A crate carries the minimum player strength required to push it. -/
inductive Entity where
  | Crate (strength : Int) : Entity
  | MovePotion : Entity
  | StrengthPotion : Entity
  | FancyPotion : Entity
  | Coin : Entity
deriving DecidableEq, Repr

/-- Modelled from the spec: a (row, column) coordinate pair into the grid,
the unique key for entity placement. -/
abbrev Position := Int × Int

/-- Modelled from the spec: move directions accepted by the Move Resolver. -/
inductive Direction where
  | Up : Direction
  | Down : Direction
  | Left : Direction
  | Right : Direction
deriving DecidableEq, Repr

/-- Modelled from the spec: the mutable aggregate of player statistics
(`model.py` is missing). -/
structure PlayerStats where
  moves_remaining : Int
  strength : Int
  money : Int
deriving DecidableEq, Repr

/-- Modelled from the spec: the Grid & Entity Store plus player position and
stats — the session-scoped mutable state (`model.py` is missing). The grid
holds static tiles; dynamic entities are keyed by position; the player is a
separate singleton coordinate. -/
structure GameState where
  grid : List (List Tile)
  entities : List (Position × Entity)
  player_position : Position
  stats : PlayerStats
deriving DecidableEq, Repr

/-- Modelled from the spec: the per-direction coordinate delta in (row,
column) form, rows growing downward. -/
def direction_delta : Direction → Int × Int
  | Direction.Up => (-1, 0)
  | Direction.Down => (1, 0)
  | Direction.Left => (0, -1)
  | Direction.Right => (0, 1)

/-- Modelled from the spec: `pos + direction_delta`, the one-step move of a
position in a direction. -/
def step_pos (p : Position) (d : Direction) : Position :=
  (p.1 + (direction_delta d).1, p.2 + (direction_delta d).2)

/-- Modelled from the spec: `entity_at(pos)` — the entity keyed by a
position in the entity store, if any (first matching entry). -/
def entity_at : List (Position × Entity) → Position → Option Entity
  | [], _ => none
  | (q, e) :: rest, p => if q = p then some e else entity_at rest p

/-- Modelled from the spec: `remove_entity(pos)` — deletes the entity at a
position (every entry keyed by it). -/
def remove_entity : List (Position × Entity) → Position →
    List (Position × Entity)
  | [], _ => []
  | (q, e) :: rest, p =>
      if q = p then remove_entity rest p else (q, e) :: remove_entity rest p

/-- Modelled from the spec: places an entity at a position, displacing
whatever entry was keyed there. -/
def set_entity (es : List (Position × Entity)) (p : Position) (e : Entity) :
    List (Position × Entity) :=
  (p, e) :: remove_entity es p

/-- Modelled from the spec: `move_entity(from, to)` — relocates the entity
keyed at `src` to `dst` (displacing a pickup already at `dst`, per the
first-entity-to-arrive precedence of spec section 3). -/
def move_entity (es : List (Position × Entity)) (src dst : Position) :
    List (Position × Entity) :=
  match entity_at es src with
  | some e => set_entity (remove_entity es src) dst e
  | none => es

/-- Whether an optional entity is a crate (the only movable entity stored in
the entity store; the player is tracked separately). -/
def is_crate : Option Entity → Bool
  | some (Entity.Crate _) => true
  | _ => false

/-- Modelled from the spec: `tile_at(pos)` — the static tile at a position.
The spec's maze sources are rectangular and wall-bounded; positions outside
the stored grid are treated as `Wall`. -/
def tile_at (g : List (List Tile)) (p : Position) : Tile :=
  if 0 ≤ p.1 ∧ 0 ≤ p.2 then
    match g.get? p.1.toNat with
    | some row => (row.get? p.2.toNat).getD Tile.Wall
    | none => Tile.Wall
  else Tile.Wall

/-- Modelled from the spec: magnitude of the MovePotion effect — a named
configuration constant (spec section 9), fixed here for executability. -/
def N_move : Int := 5

/-- Modelled from the spec: magnitude of the StrengthPotion effect — a
named configuration constant (spec section 9). -/
def N_strength : Int := 5

/-- Modelled from the spec: currency added by a Coin — a named
configuration constant (spec section 9). -/
def N_coin : Int := 5

/-- Modelled from the spec: the pickup effect table of section 4.3.
MovePotion adds to `moves_remaining`, StrengthPotion to `strength`,
FancyPotion applies the combined bonus, Coin adds money. A crate has no
stat effect. -/
def apply_pickup_effect : Entity → PlayerStats → PlayerStats
  | Entity.MovePotion, st =>
      { st with moves_remaining := st.moves_remaining + N_move }
  | Entity.StrengthPotion, st => { st with strength := st.strength + N_strength }
  | Entity.FancyPotion, st =>
      { st with moves_remaining := st.moves_remaining + N_move,
                strength := st.strength + N_strength }
  | Entity.Coin, st => { st with money := st.money + N_coin }
  | Entity.Crate _, st => st

/-- Modelled from the spec: decrement `moves_remaining` by 1, the cost of a
successful move. -/
def consume_move (st : PlayerStats) : PlayerStats :=
  { st with moves_remaining := st.moves_remaining - 1 }

/-- Modelled from the spec: step 4 of the Move Resolver — apply the
pickup's effect, remove the pickup, relocate the player to the target and
consume a move. -/
def do_pickup (s : GameState) (target : Position) (e : Entity) : GameState :=
  { s with entities := remove_entity s.entities target,
           player_position := target,
           stats := consume_move (apply_pickup_effect e s.stats) }

/-- Modelled from the spec: step 3d of the Move Resolver — relocate the
crate from the target cell to the cell beyond it, relocate the player to
the target, and consume a move. -/
def do_push (s : GameState) (target beyond : Position) : GameState :=
  { s with entities := move_entity s.entities target beyond,
           player_position := target,
           stats := consume_move s.stats }

/-- Modelled from the spec: the Move Resolver of section 4.3 (`model.py` is
missing). Returns the next state and whether the move was applied; an
illegal move returns the state unchanged with `false`. -/
def attempt_move (s : GameState) (d : Direction) : GameState × Bool :=
  if tile_at s.grid (step_pos s.player_position d) = Tile.Wall then (s, false)
  else
    match entity_at s.entities (step_pos s.player_position d) with
    | some (Entity.Crate cs) =>
        if tile_at s.grid (step_pos (step_pos s.player_position d) d)
            = Tile.Wall then (s, false)
        else if is_crate (entity_at s.entities
            (step_pos (step_pos s.player_position d) d)) then (s, false)
        else if s.stats.strength < cs then (s, false)
        else (do_push s (step_pos s.player_position d)
                (step_pos (step_pos s.player_position d) d), true)
    | some Entity.MovePotion =>
        (do_pickup s (step_pos s.player_position d) Entity.MovePotion, true)
    | some Entity.StrengthPotion =>
        (do_pickup s (step_pos s.player_position d) Entity.StrengthPotion, true)
    | some Entity.FancyPotion =>
        (do_pickup s (step_pos s.player_position d) Entity.FancyPotion, true)
    | some Entity.Coin =>
        (do_pickup s (step_pos s.player_position d) Entity.Coin, true)
    | none =>
        ({ s with player_position := step_pos s.player_position d,
                  stats := consume_move s.stats }, true)

/-- The component of a pickup's stat effect on `moves_remaining` (zero for
entities that do not affect it), used to state the net move-count change of
a successful move. -/
def moves_effect : Entity → Int
  | Entity.MovePotion => N_move
  | Entity.FancyPotion => N_move
  | _ => 0

/-- The `moves_remaining` bonus collected by moving in direction `d` from
state `s`: the moves component of the pickup at the target cell, if any. -/
def pickup_moves_bonus (s : GameState) (d : Direction) : Int :=
  match entity_at s.entities (step_pos s.player_position d) with
  | some e => moves_effect e
  | none => 0

/-- Modelled from the spec: `is_goal_filled(pos)` — true iff the tile at
`pos` is `Goal` and a crate entity occupies `pos`. -/
def is_goal_filled (s : GameState) (p : Position) : Bool :=
  decide (tile_at s.grid p = Tile.Goal) && is_crate (entity_at s.entities p)

/-- Modelled from the spec: `all_goals_filled()` — the win predicate, true
iff every cell of the grid with tile type `Goal` is goal-filled. -/
def all_goals_filled (s : GameState) : Bool :=
  (List.range s.grid.length).all fun r =>
    (List.range ((s.grid.get? r).getD []).length).all fun c =>
      !(decide (tile_at s.grid ((r : Int), (c : Int)) = Tile.Goal)) ||
        is_crate (entity_at s.entities ((r : Int), (c : Int)))

/-- Modelled from the spec: `has_won()` delegates to `all_goals_filled`. -/
def has_won (s : GameState) : Bool := all_goals_filled s

/-- Modelled from the spec: `has_lost()` is
`moves_remaining <= 0 && !has_won()`. -/
def has_lost (s : GameState) : Bool :=
  decide (s.stats.moves_remaining ≤ 0) && !has_won s

/-- Modelled from the spec: the shop's item kinds (the three potions sold
by the shop, per `a3.py`'s shop widget). -/
inductive ShopItem where
  | StrengthItem : ShopItem
  | MoveItem : ShopItem
  | FancyItem : ShopItem
deriving DecidableEq, Repr

/-- Modelled from the spec: purchase failure kinds of section 7. -/
inductive PurchaseError where
  | InsufficientFunds : PurchaseError
deriving DecidableEq, Repr

/-- Shop prices as displayed by `a3.py` (`ITEM_COSTS`): strength and move
potions cost 5, the fancy potion 10. The catalog is fixed at construction. -/
def price : ShopItem → Int
  | ShopItem.StrengthItem => 5
  | ShopItem.MoveItem => 5
  | ShopItem.FancyItem => 10

/-- The pickup entity a shop item corresponds to: bought potions apply the
same effect table as pickups (spec section 4.4). -/
def item_entity : ShopItem → Entity
  | ShopItem.StrengthItem => Entity.StrengthPotion
  | ShopItem.MoveItem => Entity.MovePotion
  | ShopItem.FancyItem => Entity.FancyPotion

/-- Modelled from the spec: `attempt_purchase(item)` of section 4.4 —
fails with `InsufficientFunds` when `money < price(item)` leaving the state
unchanged; otherwise debits `price(item)` and applies the item's stat
effect atomically. -/
def attempt_purchase (s : GameState) (item : ShopItem) :
    GameState × Option PurchaseError :=
  if s.stats.money < price item then (s, some PurchaseError.InsufficientFunds)
  else
    ({ s with stats := apply_pickup_effect (item_entity item)
                { s.stats with money := s.stats.money - price item } }, none)

/-- Modelled from the spec: the shop catalog — the item-to-price mapping,
fixed at construction and never mutated. -/
def default_catalog : List (ShopItem × Int) :=
  [(ShopItem.StrengthItem, price ShopItem.StrengthItem),
   (ShopItem.MoveItem, price ShopItem.MoveItem),
   (ShopItem.FancyItem, price ShopItem.FancyItem)]

/-- Modelled from the spec: the Game State Controller's session — the
retained initial Maze snapshot (for `reset`), the current mutable state,
and the immutable shop catalog. -/
structure Game where
  initial_snapshot : GameState
  current : GameState
  shop_catalog : List (ShopItem × Int)
deriving DecidableEq, Repr

/-- Modelled from the spec: construction — both the retained snapshot and
the current state start as the loaded state, with the fixed catalog. -/
def new_game (st : GameState) : Game :=
  { initial_snapshot := st, current := st, shop_catalog := default_catalog }

/-- Modelled from the spec: `attempt_move` lifted to the session; only the
current state changes. -/
def game_move (g : Game) (d : Direction) : Game :=
  { g with current := (attempt_move g.current d).1 }

/-- Modelled from the spec: `attempt_purchase` lifted to the session; only
the current state changes. -/
def game_purchase (g : Game) (i : ShopItem) : Game :=
  { g with current := (attempt_purchase g.current i).1 }

/-- Modelled from the spec: `reset()` — restores the current state from
the retained initial snapshot; the catalog is untouched. -/
def game_reset (g : Game) : Game :=
  { g with current := g.initial_snapshot }

/-- The commands a session accepts after construction. -/
inductive Op where
  | move (d : Direction) : Op
  | purchase (i : ShopItem) : Op
  | reset : Op
deriving DecidableEq, Repr

/-- Dispatch one command to the session. -/
def apply_op (g : Game) : Op → Game
  | Op.move d => game_move g d
  | Op.purchase i => game_purchase g i
  | Op.reset => game_reset g

/-- Run a sequence of commands from a session state. -/
def run_ops (g : Game) : List Op → Game
  | [] => g
  | op :: rest => run_ops (apply_op g op) rest

/-- Modelled from the spec: a validly loaded maze's entity store keys each
cell at most once (loader symbols map each cell to one meaning) and the
single player start cell carries no entity. -/
abbrev valid_load (s : GameState) : Prop :=
  (s.entities.map Prod.fst).Nodup ∧ entity_at s.entities s.player_position = none

/-- The number of crate entries occupying a position in the entity store. -/
def crates_at (s : GameState) (p : Position) : Nat :=
  (s.entities.filter
    (fun pe => decide (pe.1 = p) && is_crate (some pe.2))).length

/-- The number of movable entities (crates plus the player) occupying a
position. -/
def movables_at (s : GameState) (p : Position) : Nat :=
  crates_at s p + (if p = s.player_position then 1 else 0)

/-- Outcome the controller reports after a keypress: from `a3.py`
`handle_keypress` — the win check runs first, and only otherwise a
moves-exhausted check reports a loss. -/
inductive KeyOutcome where
  | won : KeyOutcome
  | lost : KeyOutcome
  | playing : KeyOutcome
deriving DecidableEq, Repr

/-- From `a3.py` `handle_keypress` (lines 343–357): after a move, `if
self._model.has_won()` reports the win dialog; `elif
self._model.get_player_moves_remaining() <= 0` reports the loss dialog;
otherwise play continues. -/
def keypress_outcome (hasWonNow : Bool) (movesRemaining : Int) : KeyOutcome :=
  if hasWonNow then KeyOutcome.won
  else if movesRemaining ≤ 0 then KeyOutcome.lost
  else KeyOutcome.playing

/-- ASCII lowercasing of one character, embedding Python's `str.lower` on
the keysym strings that occur here. -/
def lower_char (c : Char) : Char :=
  if 'A' ≤ c ∧ c ≤ 'Z' then Char.ofNat (c.toNat + 32) else c

/-- ASCII lowercasing of a string (Python's `str.lower` on keysyms). -/
def lower_string (s : String) : String :=
  String.mk (s.data.map lower_char)

/-- From `a3.py` `handle_keypress` (lines 327–341): the keysym is
lowercased, then the `move_to_wasd` dictionary replaces `up`/`down`/
`left`/`right` by `w`/`s`/`a`/`d`; the result is passed to
`attempt_move`. -/
def forwarded_move (keysym : String) : String :=
  let m := lower_string keysym
  if m = "up" then "w"
  else if m = "down" then "s"
  else if m = "left" then "a"
  else if m = "right" then "d"
  else m

/-- From `a3.py` `play_game` (lines 376–383): the keysyms bound to
`handle_keypress` — the four arrow keys and the four WASD keys. -/
def bound_keysyms : List String :=
  ["Up", "Down", "Left", "Right", "w", "a", "s", "d"]

/-! ## Entity store lemmas -/

/-- Stepping never stays in place. -/
theorem step_pos_ne (p : Position) (d : Direction) : step_pos p d ≠ p := by
  cases d <;>
    simp only [step_pos, direction_delta, ne_eq, Prod.ext_iff, not_and] <;>
    omega

/-- Looking up any position after a removal: the removed key reads `none`,
every other key is unaffected. -/
theorem entity_at_remove (es : List (Position × Entity)) (p q : Position) :
    entity_at (remove_entity es p) q = if q = p then none else entity_at es q := by
  induction es with
  | nil => simp [remove_entity, entity_at]
  | cons pe rest ih =>
    obtain ⟨r, e⟩ := pe
    by_cases hrp : r = p
    · subst hrp
      by_cases hq : r = q
      · subst hq
        simp [remove_entity, entity_at, ih]
      · simp [remove_entity, entity_at, ih, hq, Ne.symm hq]
    · by_cases hq : r = q
      · subst hq
        simp [remove_entity, entity_at, hrp, Ne.symm hrp]
      · simp [remove_entity, entity_at, hrp, hq, ih]

/-- Looking up any position after placing an entity: the placed key reads the
new entity, every other key is unaffected. -/
theorem entity_at_set (es : List (Position × Entity)) (p : Position)
    (e : Entity) (q : Position) :
    entity_at (set_entity es p e) q = if q = p then some e else entity_at es q := by
  by_cases hq : p = q
  · subst hq
    simp [set_entity, entity_at]
  · simp [set_entity, entity_at, hq, entity_at_remove, Ne.symm hq]

/-- Removal keeps at most the original keys, in order. -/
theorem remove_keys_sublist (es : List (Position × Entity)) (p : Position) :
    ((remove_entity es p).map Prod.fst).Sublist (es.map Prod.fst) := by
  induction es with
  | nil => simp [remove_entity]
  | cons pe rest ih =>
    obtain ⟨r, e⟩ := pe
    by_cases hrp : r = p
    · simpa [remove_entity, hrp] using ih.cons r
    · simpa [remove_entity, hrp] using ih.cons₂ r

/-- The removed key no longer occurs among the store's keys. -/
theorem not_mem_keys_remove (es : List (Position × Entity)) (p : Position) :
    p ∉ (remove_entity es p).map Prod.fst := by
  induction es with
  | nil => simp [remove_entity]
  | cons pe rest ih =>
    obtain ⟨r, e⟩ := pe
    by_cases hrp : r = p
    · simpa [remove_entity, hrp] using ih
    · simp [remove_entity, hrp, ih, Ne.symm hrp]

/-- Removal preserves distinctness of the store's keys. -/
theorem nodup_keys_remove (es : List (Position × Entity)) (p : Position)
    (h : (es.map Prod.fst).Nodup) : ((remove_entity es p).map Prod.fst).Nodup :=
  h.sublist (remove_keys_sublist es p)

/-- Placing an entity preserves distinctness of the store's keys. -/
theorem nodup_keys_set (es : List (Position × Entity)) (p : Position)
    (e : Entity) (h : (es.map Prod.fst).Nodup) :
    ((set_entity es p e).map Prod.fst).Nodup := by
  simp only [set_entity, List.map_cons, List.nodup_cons]
  exact ⟨not_mem_keys_remove es p, nodup_keys_remove es p h⟩

/-- A position reads `none` exactly when it is not a key of the store. -/
theorem entity_at_eq_none_iff (es : List (Position × Entity)) (p : Position) :
    entity_at es p = none ↔ p ∉ es.map Prod.fst := by
  induction es with
  | nil => simp [entity_at]
  | cons pe rest ih =>
    obtain ⟨r, e⟩ := pe
    by_cases hrp : r = p
    · subst hrp
      simp [entity_at]
    · simp [entity_at, hrp, ih, Ne.symm hrp]

/-! ## Move resolver lemmas -/

/-- An illegal (rejected) move returns the state unchanged. -/
theorem attempt_move_false_eq (s : GameState) (d : Direction) :
    (attempt_move s d).2 = false → (attempt_move s d).1 = s := by
  unfold attempt_move
  split
  · intro _; rfl
  · split
    · split
      · intro _; rfl
      · split
        · intro _; rfl
        · split
          · intro _; rfl
          · intro h; simp at h
    · intro h; simp at h
    · intro h; simp at h
    · intro h; simp at h
    · intro h; simp at h
    · intro h; simp at h

/-- A successful move changes `moves_remaining` by the collected pickup's
moves bonus minus the one consumed move. -/
theorem attempt_move_true_moves (s : GameState) (d : Direction) :
    (attempt_move s d).2 = true →
      (attempt_move s d).1.stats.moves_remaining
        = s.stats.moves_remaining + pickup_moves_bonus s d - 1 := by
  unfold attempt_move pickup_moves_bonus
  split
  · intro h; simp at h
  · split
    · split
      · intro h; simp at h
      · split
        · intro h; simp at h
        · split
          · intro h; simp at h
          · rename_i heq h1 h2 h3
            intro _
            simp [heq, do_push, consume_move, moves_effect]
    · rename_i heq
      intro _
      simp [heq, do_pickup, consume_move, apply_pickup_effect, moves_effect]
    · rename_i heq
      intro _
      simp [heq, do_pickup, consume_move, apply_pickup_effect, moves_effect]
    · rename_i heq
      intro _
      simp [heq, do_pickup, consume_move, apply_pickup_effect, moves_effect]
    · rename_i heq
      intro _
      simp [heq, do_pickup, consume_move, apply_pickup_effect, moves_effect]
    · rename_i heq
      intro _
      simp [heq, consume_move, moves_effect]

/-! ## Preservation of the loaded-state wellformedness -/

/-- Any move attempt, applied or rejected, keeps the store's keys distinct
and the player's cell entity-free. -/
theorem valid_load_attempt_move (s : GameState) (d : Direction)
    (h : valid_load s) : valid_load (attempt_move s d).1 := by
  obtain ⟨hnd, hpl⟩ := h
  unfold attempt_move
  split
  · exact ⟨hnd, hpl⟩
  · split
    · split
      · exact ⟨hnd, hpl⟩
      · split
        · exact ⟨hnd, hpl⟩
        · split
          · exact ⟨hnd, hpl⟩
          · rename_i heq h1 h2 h3
            refine ⟨?_, ?_⟩
            · simp only [do_push]
              unfold move_entity
              rw [heq]
              exact nodup_keys_set _ _ _ (nodup_keys_remove _ _ hnd)
            · simp only [do_push]
              unfold move_entity
              rw [heq, entity_at_set,
                if_neg (Ne.symm (step_pos_ne (step_pos s.player_position d) d)),
                entity_at_remove, if_pos rfl]
    · rename_i heq
      exact ⟨nodup_keys_remove _ _ hnd, by
        simp only [do_pickup]
        rw [entity_at_remove, if_pos rfl]⟩
    · rename_i heq
      exact ⟨nodup_keys_remove _ _ hnd, by
        simp only [do_pickup]
        rw [entity_at_remove, if_pos rfl]⟩
    · rename_i heq
      exact ⟨nodup_keys_remove _ _ hnd, by
        simp only [do_pickup]
        rw [entity_at_remove, if_pos rfl]⟩
    · rename_i heq
      exact ⟨nodup_keys_remove _ _ hnd, by
        simp only [do_pickup]
        rw [entity_at_remove, if_pos rfl]⟩
    · rename_i heq
      exact ⟨hnd, heq⟩

/-- A purchase attempt touches only the stats, so it keeps the store's keys
distinct and the player's cell entity-free. -/
theorem valid_load_attempt_purchase (s : GameState) (i : ShopItem)
    (h : valid_load s) : valid_load (attempt_purchase s i).1 := by
  unfold attempt_purchase
  split
  · exact h
  · exact ⟨h.1, h.2⟩

/-! ## Counting movable entities -/

/-- No store entry survives the crates-at filter at a position that is not a
key of the store. -/
theorem filter_key_eq_nil (es : List (Position × Entity)) (p : Position)
    (h : p ∉ es.map Prod.fst) :
    es.filter (fun pe => decide (pe.1 = p) && is_crate (some pe.2)) = [] := by
  induction es with
  | nil => rfl
  | cons pe rest ih =>
    obtain ⟨r, e⟩ := pe
    simp only [List.map_cons, List.mem_cons, not_or] at h
    obtain ⟨h1, h2⟩ := h
    simp [List.filter_cons, Ne.symm h1, ih h2]

/-- With distinct keys, at most one store entry survives the crates-at
filter at any position. -/
theorem filter_key_length_le_one (es : List (Position × Entity))
    (p : Position) (h : (es.map Prod.fst).Nodup) :
    (es.filter (fun pe => decide (pe.1 = p) && is_crate (some pe.2))).length
      ≤ 1 := by
  induction es with
  | nil => simp
  | cons pe rest ih =>
    obtain ⟨r, e⟩ := pe
    simp only [List.map_cons, List.nodup_cons] at h
    obtain ⟨hr, hnd⟩ := h
    by_cases hrp : r = p
    · subst hrp
      simp [List.filter_cons, filter_key_eq_nil rest r hr]
      split <;> simp
    · simp only [List.filter_cons, hrp, decide_False, Bool.false_and,
        Bool.false_eq_true, if_false]
      exact ih hnd

/-- A well-formed state has at most one movable entity per position. -/
theorem movables_at_le_one (s : GameState) (h : valid_load s)
    (p : Position) : movables_at s p ≤ 1 := by
  unfold movables_at crates_at
  by_cases hp : p = s.player_position
  · rw [if_pos hp]
    have h0 : p ∉ s.entities.map Prod.fst := by
      rw [hp]
      exact (entity_at_eq_none_iff _ _).mp h.2
    rw [filter_key_eq_nil _ _ h0]
    simp
  · rw [if_neg hp]
    simpa using filter_key_length_le_one s.entities p h.1

/-! ## Session-level lemmas -/

/-- No command changes the retained initial snapshot or the shop catalog. -/
theorem apply_op_initial (g : Game) (op : Op) :
    (apply_op g op).initial_snapshot = g.initial_snapshot ∧
      (apply_op g op).shop_catalog = g.shop_catalog := by
  cases op <;> simp [apply_op, game_move, game_purchase, game_reset]

/-- No command sequence changes the retained initial snapshot or the shop
catalog. -/
theorem run_ops_initial (g : Game) (ops : List Op) :
    (run_ops g ops).initial_snapshot = g.initial_snapshot ∧
      (run_ops g ops).shop_catalog = g.shop_catalog := by
  induction ops generalizing g with
  | nil => exact ⟨rfl, rfl⟩
  | cons op rest ih =>
    simp only [run_ops]
    obtain ⟨h1, h2⟩ := apply_op_initial g op
    obtain ⟨h3, h4⟩ := ih (apply_op g op)
    exact ⟨h3.trans h1, h4.trans h2⟩

/-- Wellformedness of the current state is preserved by any command
sequence, provided the retained snapshot is well formed too (it is the
state `reset` restores). -/
theorem valid_load_run_ops (g : Game) (ops : List Op)
    (hinit : valid_load g.initial_snapshot) (hcur : valid_load g.current) :
    valid_load (run_ops g ops).current := by
  induction ops generalizing g with
  | nil => exact hcur
  | cons op rest ih =>
    simp only [run_ops]
    apply ih
    · rw [(apply_op_initial g op).1]
      exact hinit
    · cases op with
      | move d => exact valid_load_attempt_move g.current d hcur
      | purchase i => exact valid_load_attempt_purchase g.current i hcur
      | reset => exact hinit

/-! ## Win predicate lemmas -/

/-- A position whose tile reads `Goal` is inside the stored grid: both
coordinates are non-negative and index an actual row and cell. -/
theorem tile_at_goal_inv (g : List (List Tile)) (p : Position)
    (h : tile_at g p = Tile.Goal) :
    0 ≤ p.1 ∧ 0 ≤ p.2 ∧ ∃ row, g.get? p.1.toNat = some row ∧
      row.get? p.2.toNat = some Tile.Goal := by
  unfold tile_at at h
  split at h
  · rename_i hpos
    split at h
    · rename_i row hrow
      cases hcell : row.get? p.2.toNat with
      | none => rw [hcell] at h; simp at h
      | some t =>
        rw [hcell] at h
        simp only [Option.getD_some] at h
        subst h
        exact ⟨hpos.1, hpos.2, row, hrow, hcell⟩
    · simp at h
  · simp at h

/-- The executable win predicate holds exactly when every position whose
tile is a goal carries a crate. -/
theorem all_goals_filled_iff (s : GameState) :
    all_goals_filled s = true ↔
      ∀ p : Position, tile_at s.grid p = Tile.Goal →
        is_crate (entity_at s.entities p) = true := by
  unfold all_goals_filled
  rw [List.all_eq_true]
  constructor
  · intro h p hp
    obtain ⟨h1, h2, row, hrow, hcell⟩ := tile_at_goal_inv s.grid p hp
    have hr : p.1.toNat < s.grid.length := by
      rcases List.get?_eq_some.mp hrow with ⟨hlt, _⟩
      exact hlt
    have hc : p.2.toNat < row.length := by
      rcases List.get?_eq_some.mp hcell with ⟨hlt, _⟩
      exact hlt
    have h' := h _ (List.mem_range.mpr hr)
    simp only [hrow, Option.getD_some, List.all_eq_true] at h'
    have h'' := h' _ (List.mem_range.mpr hc)
    have hp' : ((p.1.toNat : Int), (p.2.toNat : Int)) = p := by
      obtain ⟨a, b⟩ := p
      simp only [Prod.mk.injEq]
      exact ⟨Int.toNat_of_nonneg h1, Int.toNat_of_nonneg h2⟩
    rw [hp'] at h''
    simpa [hp] using h''
  · intro h r _
    simp only [List.all_eq_true]
    intro c _
    by_cases hg : tile_at s.grid ((r : Int), (c : Int)) = Tile.Goal
    · simp [hg, h _ hg]
    · simp [hg]

/-! ## Concrete fixture states -/

/-- A concrete 4×5 wall-bounded maze: one goal cell at row 1, column 3. -/
def ex_grid : List (List Tile) :=
  [[Tile.Wall, Tile.Wall, Tile.Wall, Tile.Wall, Tile.Wall],
   [Tile.Wall, Tile.Floor, Tile.Floor, Tile.Goal, Tile.Wall],
   [Tile.Wall, Tile.Floor, Tile.Floor, Tile.Floor, Tile.Wall],
   [Tile.Wall, Tile.Wall, Tile.Wall, Tile.Wall, Tile.Wall]]

/-- A concrete loaded state on `ex_grid`: the player at (1,1), a pushable
crate at (1,2), a coin at (2,2). -/
def ex_state : GameState :=
  { grid := ex_grid,
    entities := [(((1 : Int), (2 : Int)), Entity.Crate 1),
                 (((2 : Int), (2 : Int)), Entity.Coin)],
    player_position := ((1 : Int), (1 : Int)),
    stats := { moves_remaining := 10, strength := 1, money := 0 } }

/-- The same maze with the player at (2,1), directly left of the coin. -/
def ex_state2 : GameState :=
  { ex_state with player_position := ((2 : Int), (1 : Int)) }

/-! ## The claims -/

/-- C1: an illegal `attempt_move` — target tile a wall, or a crate push
blocked or under-strength — leaves the entire state (grid, entities, player
position, and all stats including `moves_remaining`) exactly unchanged. -/
theorem claim_C1 (s : GameState) (d : Direction)
    (h : (attempt_move s d).2 = false) : (attempt_move s d).1 = s :=
  attempt_move_false_eq s d h

/-- C1 witness: in the fixture state, moving up hits a wall and the state is
returned unchanged. -/
theorem claim_C1_witness :
    (attempt_move ex_state Direction.Up).2 = false ∧
      (attempt_move ex_state Direction.Up).1 = ex_state :=
  ⟨by decide, claim_C1 ex_state Direction.Up (by decide)⟩

/-- C2: a successful `attempt_move` changes `moves_remaining` by the
collected pickup's move bonus minus exactly one consumed move (so by exactly
−1 when no move-affecting pickup is collected), and an unsuccessful one
leaves it unchanged. -/
theorem claim_C2 (s : GameState) (d : Direction) :
    ((attempt_move s d).2 = true →
      (attempt_move s d).1.stats.moves_remaining
        = s.stats.moves_remaining + pickup_moves_bonus s d - 1) ∧
    ((attempt_move s d).2 = false →
      (attempt_move s d).1.stats.moves_remaining
        = s.stats.moves_remaining) ∧
    (entity_at s.entities (step_pos s.player_position d) = none →
      (attempt_move s d).2 = true →
      (attempt_move s d).1.stats.moves_remaining
        = s.stats.moves_remaining - 1) := by
  refine ⟨attempt_move_true_moves s d, ?_, ?_⟩
  · intro h
    rw [attempt_move_false_eq s d h]
  · intro hnone htrue
    have hb : pickup_moves_bonus s d = 0 := by
      simp [pickup_moves_bonus, hnone]
    rw [attempt_move_true_moves s d htrue, hb]
    omega

/-- C3: with a crate on the target cell, the move succeeds exactly when the
cell beyond is no wall, holds no movable entity, and the player's strength
suffices; on success the crate sits on the beyond cell, the target cell is
free, the player stands on the target, and one move is consumed. -/
theorem claim_C3 (s : GameState) (d : Direction) (cs : Int)
    (target beyond : Position)
    (htarget : target = step_pos s.player_position d)
    (hbeyond : beyond = step_pos target d)
    (hT : tile_at s.grid target ≠ Tile.Wall)
    (hE : entity_at s.entities target = some (Entity.Crate cs)) :
    ((attempt_move s d).2 = true ↔
      (tile_at s.grid beyond ≠ Tile.Wall ∧
       is_crate (entity_at s.entities beyond) = false ∧
       cs ≤ s.stats.strength)) ∧
    ((attempt_move s d).2 = true →
      entity_at (attempt_move s d).1.entities beyond
          = some (Entity.Crate cs) ∧
      entity_at (attempt_move s d).1.entities target = none ∧
      (attempt_move s d).1.player_position = target ∧
      (attempt_move s d).1.stats.moves_remaining
        = s.stats.moves_remaining - 1) := by
  subst htarget
  subst hbeyond
  simp only [attempt_move, hE]
  rw [if_neg hT]
  by_cases h1 : tile_at s.grid (step_pos (step_pos s.player_position d) d)
      = Tile.Wall
  · simp [h1]
  · by_cases h2 : is_crate (entity_at s.entities
        (step_pos (step_pos s.player_position d) d)) = true
    · simp [h1, h2]
    · by_cases h3 : s.stats.strength < cs
      · simp [h1, h2, h3, not_le.mpr h3]
      · simp only [h1, h2, h3, if_false, Bool.false_eq_true, if_true,
          if_neg, ite_false, ite_true]
        constructor
        · simp [h1, h2, not_lt.mp h3]
        · intro _
          refine ⟨?_, ?_, rfl, rfl⟩
          · simp only [do_push]
            unfold move_entity
            rw [hE, entity_at_set, if_pos rfl]
          · simp only [do_push]
            unfold move_entity
            rw [hE, entity_at_set,
              if_neg (Ne.symm (step_pos_ne (step_pos s.player_position d) d)),
              entity_at_remove, if_pos rfl]

/-- C3 witness: in the fixture state, pushing the crate right onto the goal
succeeds, relocating crate and player and consuming one move. -/
theorem claim_C3_witness :
    (((attempt_move ex_state Direction.Right).2 = true ↔
      (tile_at ex_state.grid ((1 : Int), (3 : Int)) ≠ Tile.Wall ∧
       is_crate (entity_at ex_state.entities ((1 : Int), (3 : Int))) = false ∧
       (1 : Int) ≤ ex_state.stats.strength)) ∧
    ((attempt_move ex_state Direction.Right).2 = true →
      entity_at (attempt_move ex_state Direction.Right).1.entities
          ((1 : Int), (3 : Int)) = some (Entity.Crate 1) ∧
      entity_at (attempt_move ex_state Direction.Right).1.entities
          ((1 : Int), (2 : Int)) = none ∧
      (attempt_move ex_state Direction.Right).1.player_position
          = ((1 : Int), (2 : Int)) ∧
      (attempt_move ex_state Direction.Right).1.stats.moves_remaining
        = ex_state.stats.moves_remaining - 1)) :=
  claim_C3 ex_state Direction.Right 1 ((1 : Int), (2 : Int))
    ((1 : Int), (3 : Int)) (by decide) (by decide) (by decide) (by decide)

/-- C4: the win predicate holds exactly when every grid position whose tile
is a goal is occupied by a crate entity. -/
theorem claim_C4 (s : GameState) :
    has_won s = true ↔
      ∀ p : Position, tile_at s.grid p = Tile.Goal →
        is_crate (entity_at s.entities p) = true :=
  all_goals_filled_iff s

/-- C5: with a pickup on the target cell (and the tile no wall), the move
succeeds: the pickup's stat effect is applied and a move consumed, the
pickup is removed from the store, and the player stands on the target. -/
theorem claim_C5 (s : GameState) (d : Direction) (e : Entity)
    (target : Position)
    (htarget : target = step_pos s.player_position d)
    (hT : tile_at s.grid target ≠ Tile.Wall)
    (hE : entity_at s.entities target = some e)
    (hC : is_crate (some e) = false) :
    (attempt_move s d).2 = true ∧
    (attempt_move s d).1.stats
      = consume_move (apply_pickup_effect e s.stats) ∧
    entity_at (attempt_move s d).1.entities target = none ∧
    (attempt_move s d).1.player_position = target ∧
    (attempt_move s d).1.grid = s.grid := by
  subst htarget
  cases e with
  | Crate cs => simp [is_crate] at hC
  | MovePotion =>
    simp only [attempt_move, hE]
    rw [if_neg hT]
    exact ⟨rfl, rfl, by simp [do_pickup, entity_at_remove], rfl, rfl⟩
  | StrengthPotion =>
    simp only [attempt_move, hE]
    rw [if_neg hT]
    exact ⟨rfl, rfl, by simp [do_pickup, entity_at_remove], rfl, rfl⟩
  | FancyPotion =>
    simp only [attempt_move, hE]
    rw [if_neg hT]
    exact ⟨rfl, rfl, by simp [do_pickup, entity_at_remove], rfl, rfl⟩
  | Coin =>
    simp only [attempt_move, hE]
    rw [if_neg hT]
    exact ⟨rfl, rfl, by simp [do_pickup, entity_at_remove], rfl, rfl⟩

/-- C5 witness: in the second fixture state, moving right collects the coin:
the move succeeds, the coin's money effect and the move decrement apply, and
the coin is gone from the store. -/
theorem claim_C5_witness :
    (attempt_move ex_state2 Direction.Right).2 = true ∧
    (attempt_move ex_state2 Direction.Right).1.stats
      = consume_move (apply_pickup_effect Entity.Coin ex_state2.stats) ∧
    entity_at (attempt_move ex_state2 Direction.Right).1.entities
        ((2 : Int), (2 : Int)) = none ∧
    (attempt_move ex_state2 Direction.Right).1.player_position
        = ((2 : Int), (2 : Int)) ∧
    (attempt_move ex_state2 Direction.Right).1.grid = ex_state2.grid :=
  claim_C5 ex_state2 Direction.Right Entity.Coin ((2 : Int), (2 : Int))
    (by decide) (by decide) (by decide) (by decide)

/-- C6: a purchase without sufficient money fails with `InsufficientFunds`
and changes nothing; with sufficient money it debits exactly the price and
applies exactly the item's one stat effect, atomically. -/
theorem claim_C6 (s : GameState) (item : ShopItem) :
    (s.stats.money < price item →
      attempt_purchase s item = (s, some PurchaseError.InsufficientFunds)) ∧
    (price item ≤ s.stats.money →
      attempt_purchase s item =
        ({ s with stats := (apply_pickup_effect (item_entity item)
             { s.stats with money := s.stats.money - price item }) }, none) ∧
      (attempt_purchase s item).1.stats.money
        = s.stats.money - price item) := by
  constructor
  · intro h
    simp [attempt_purchase, h]
  · intro h
    have h' : ¬ s.stats.money < price item := not_lt.mpr h
    refine ⟨by simp [attempt_purchase, h'], ?_⟩
    simp only [attempt_purchase, h', if_false, ite_false, if_neg]
    cases item <;> simp [item_entity, apply_pickup_effect]

/-- C7: after any command sequence, `reset` restores the current state to
exactly the state as constructed, and the shop catalog is unchanged both by
the commands and by the reset. -/
theorem claim_C7 (st : GameState) (ops : List Op) :
    (game_reset (run_ops (new_game st) ops)).current = st ∧
    (game_reset (run_ops (new_game st) ops)).shop_catalog
      = (new_game st).shop_catalog ∧
    (game_reset (run_ops (new_game st) ops)).shop_catalog
      = (run_ops (new_game st) ops).shop_catalog := by
  have h := run_ops_initial (new_game st) ops
  exact ⟨h.1, h.2, rfl⟩

/-- C8: `has_lost` holds exactly when the move budget is exhausted and the
game is not won; when the game is won the controller reports the win, never
the loss, even with zero moves left. -/
theorem claim_C8 (s : GameState) :
    (has_lost s = true ↔
      s.stats.moves_remaining ≤ 0 ∧ has_won s = false) ∧
    (has_won s = true →
      keypress_outcome (has_won s) s.stats.moves_remaining
        = KeyOutcome.won ∧ has_lost s = false) := by
  constructor
  · simp [has_lost]
  · intro hw
    exact ⟨by simp [keypress_outcome, hw], by simp [has_lost, hw]⟩

/-- C9: starting from a validly loaded state, after any sequence of moves,
purchases and resets, every position holds at most one movable entity
(player or crate). -/
theorem claim_C9 (st : GameState) (ops : List Op) (h : valid_load st)
    (p : Position) :
    movables_at (run_ops (new_game st) ops).current p ≤ 1 :=
  movables_at_le_one _ (valid_load_run_ops (new_game st) ops h h) p

/-- C9 witness: on the fixture state, a concrete sequence of a push, a
purchase, a reset and a further move leaves at most one movable entity on
the crate's cell. -/
theorem claim_C9_witness :
    movables_at (run_ops (new_game ex_state)
        [Op.move Direction.Right, Op.purchase ShopItem.MoveItem, Op.reset,
         Op.move Direction.Down]).current ((1 : Int), (2 : Int)) ≤ 1 :=
  claim_C9 ex_state
    [Op.move Direction.Right, Op.purchase ShopItem.MoveItem, Op.reset,
     Op.move Direction.Down] (by decide) ((1 : Int), (2 : Int))

/-- C10: the controller forwards arrow keys as the matching WASD letters:
each arrow keysym maps to exactly the same move string as its WASD key, the
bound keys only ever forward `w`, `a`, `s` or `d`, and any other keysym is
forwarded lowercased. -/
theorem claim_C10 :
    forwarded_move "Up" = "w" ∧ forwarded_move "Down" = "s" ∧
    forwarded_move "Left" = "a" ∧ forwarded_move "Right" = "d" ∧
    forwarded_move "w" = "w" ∧ forwarded_move "a" = "a" ∧
    forwarded_move "s" = "s" ∧ forwarded_move "d" = "d" ∧
    (bound_keysyms.all fun k =>
      ["w", "a", "s", "d"].contains (forwarded_move k)) = true ∧
    ∀ k : String, forwarded_move k = "w" ∨ forwarded_move k = "s" ∨
      forwarded_move k = "a" ∨ forwarded_move k = "d" ∨
      forwarded_move k = lower_string k := by
  refine ⟨by decide, by decide, by decide, by decide, by decide, by decide,
    by decide, by decide, by decide, ?_⟩
  intro k
  simp only [forwarded_move]
  split_ifs <;> simp

end Sokoban
